import Mathlib

/-!
Shallow embedding of the research-agent pipeline
(src/research_agent/{state.py, graph.py, main.py}).

The pipeline is a LangGraph state machine researcher -> enricher -> validator
with a conditional edge back to researcher.  External effects (Tavily search,
Bedrock extraction) are modelled as explicit outcome parameters: each pass
consumes one ResearchOutcome (the parsed JSON of the researcher extraction, or
a failure) and one per-founder stream of EnrichOutcome values (the parsed JSON
of the enricher extraction for founder number i, or a failure).

Python dict/TypedDict state is modelled as Lean structures.  The key fact kept
from the source: the initial state built in main.py (lines 42-48) has NO
company_info entry, so company_info is an Option here, and the bare
state["company_info"] subscripts in enricher_node / validator_node
(graph.py lines 122 and 175) are modelled as Except, erroring exactly when the
entry is absent (a Python KeyError that propagates out of graph.invoke).
-/

namespace ResearchAgent

/-- FounderInfo from state.py: one discovered person. -/
structure FounderInfo where
  name : String
  title : String
  linkedin_url : Option String := none
  twitter_url : Option String := none
  email : Option String := none
  phone : Option String := none
deriving DecidableEq, Repr

/-- CompanyInfo from state.py: the aggregate profile for one company. -/
structure CompanyInfo where
  name : String
  linkedin_url : String
  domain : Option String := none
  description : Option String := none
  staff_strength : Option String := none
  twitter_url : Option String := none
  phone : Option String := none
  founders : List FounderInfo := []
deriving DecidableEq, Repr

/-- AgentState from state.py.  company_info is optional because the initial
state dict built in main.py has no such key; is_valid likewise starts absent
in the dict but is only ever read after validator_node writes it, so a dummy
false default is sound. -/
structure AgentState where
  company_name : String
  company_linkedin : String
  company_info : Option CompanyInfo := none
  retry_count : Nat := 0
  is_valid : Bool := false
  errors : List String := []
  logs : List String := []
deriving DecidableEq, Repr

/-- The initial state built in main.py lines 42-48. -/
def initialState (company_name company_linkedin : String) : AgentState :=
  { company_name := company_name
    company_linkedin := company_linkedin
    company_info := none
    retry_count := 0
    is_valid := false
    errors := []
    logs := [] }

/-- Parsed JSON object produced by the researcher extraction call
(graph.py line 85): the five company scalars plus a founder list.
A JSON null and a missing key both come out of dict.get as None,
hence a single Option per scalar. -/
structure ResearchData where
  domain : Option String := none
  description : Option String := none
  twitter_url : Option String := none
  phone : Option String := none
  staff_strength : Option String := none
  founders : List FounderInfo := []
deriving DecidableEq, Repr

/-- Outcome of one researcher extraction call: fail covers both an exception
from llm.invoke and a json.loads parse failure (the except branch at
graph.py line 113, with msg the stringified exception). -/
inductive ResearchOutcome where
  | fail (msg : String)
  | ok (d : ResearchData)
deriving DecidableEq, Repr

/-- Parsed JSON object of one enricher extraction call (graph.py line 156).
The outer Option records whether the key is present in the parsed object
(dict.update only touches present keys); the inner Option records JSON null. -/
structure FounderUpdate where
  twitter_url : Option (Option String) := none
  email : Option (Option String) := none
  phone : Option (Option String) := none
  linkedin_url : Option (Option String) := none
deriving DecidableEq, Repr

/-- Outcome of one enricher extraction call for one founder: fail covers the
bare except at graph.py line 165 (invoke raised or json.loads failed). -/
inductive EnrichOutcome where
  | fail
  | ok (u : FounderUpdate)
deriving DecidableEq, Repr

/-- External outcomes consumed by one full pass: the researcher extraction
result plus, for founder number i of the loop, the extraction result of that
founder. -/
structure PassOutcome where
  research : ResearchOutcome
  enrich : Nat → EnrichOutcome

/-- Python truthiness of an optional string: None and the empty string are
falsy, every other string is truthy. -/
def truthy : Option String → Bool
  | none => false
  | some s => s != ""

/-- Membership test used to translate the regex: does the pattern list stand
at the head of the subject list. -/
def listStarts : List Char → List Char → Bool
  | [], _ => true
  | _ :: _, [] => false
  | p :: ps, c :: cs => p == c && listStarts ps cs

/-- The eight concrete literal heads generated by the regex
https?://(www\.)?(twitter\.com|x\.com)/ used at graph.py lines 191 and 202. -/
def twitterUrlForms : List String :=
  [ "http://twitter.com/", "http://x.com/",
    "http://www.twitter.com/", "http://www.x.com/",
    "https://twitter.com/", "https://x.com/",
    "https://www.twitter.com/", "https://www.x.com/" ]

/-- Translation of re.match(r"https?://(www\.)?(twitter\.com|x\.com)/.+", s):
re.match anchors at the start only, so the string matches iff it begins with
one of the eight literal alternatives followed by at least one character that
the dot can match (any character except a newline). -/
def matchesTwitter (s : String) : Bool :=
  twitterUrlForms.any fun p =>
    listStarts p.data s.data &&
      (match s.data.drop p.data.length with
       | [] => false
       | c :: _ => c != '\n')

/-- Python any(c.isdigit() for c in staff), restricted to ASCII digits. -/
def hasDigit (s : String) : Bool := s.data.any Char.isDigit

/-- Check 3 of validator_node (graph.py lines 189-192): company twitter URL. -/
def companyTwitterDefects (t : Option String) : List String :=
  match t with
  | none => []
  | some u =>
      if u != "" && !matchesTwitter u then
        ["Invalid Company Twitter URL: " ++ u]
      else []

/-- Check 4 of validator_node (graph.py lines 195-197): staff strength. -/
def staffDefects (t : Option String) : List String :=
  match t with
  | none => []
  | some s =>
      if s != "" && !(hasDigit s || s.length > 1) then
        ["Suspicious Staff Strength: " ++ s]
      else []

/-- Per-founder twitter check of validator_node (graph.py lines 199-203). -/
def founderTwitterDefects (f : FounderInfo) : List String :=
  match f.twitter_url with
  | none => []
  | some u =>
      if u != "" && !matchesTwitter u then
        ["Invalid Founder Twitter URL (" ++ f.name ++ "): " ++ u]
      else []

/-- The full defect list assembled by validator_node (graph.py lines 176-203),
in source order: domain check, founder-presence check, company twitter check,
staff-strength check, then one check per founder in list order. -/
def validatorDefects (info : CompanyInfo) : List String :=
  (if truthy info.domain then [] else ["Missing Company Domain"])
    ++ (if info.founders.isEmpty then ["No Founders Identified"] else [])
    ++ companyTwitterDefects info.twitter_url
    ++ staffDefects info.staff_strength
    ++ (info.founders.map founderTwitterDefects).flatten

/-- The default profile built at graph.py lines 89-93 when the state has no
company_info yet: only name, linkedin_url and an empty founder list; the
scalar keys are absent, i.e. none. -/
def defaultInfo (st : AgentState) : CompanyInfo :=
  { name := st.company_name
    linkedin_url := st.company_linkedin
    founders := [] }

/-- researcher_node (graph.py lines 28-116) with the extraction outcome made
explicit.  On failure it only appends one diagnostic to errors; on success it
overwrites the five scalars unconditionally, overwrites founders only when the
extracted list is non-empty, and appends one log line. -/
def researcher_node (st : AgentState) (o : ResearchOutcome) : AgentState :=
  match o with
  | ResearchOutcome.fail msg =>
      { st with errors := st.errors ++ ["Researcher Error: " ++ msg] }
  | ResearchOutcome.ok d =>
      let base := st.company_info.getD (defaultInfo st)
      let scalars :=
        { base with
            domain := d.domain
            description := d.description
            twitter_url := d.twitter_url
            phone := d.phone
            staff_strength := d.staff_strength }
      let current :=
        if d.founders.isEmpty then scalars
        else { scalars with founders := d.founders }
      { st with
          company_info := some current
          logs := st.logs ++
            ["Researcher found basic info and " ++
              toString current.founders.length ++ " potential founders."] }

/-- One dict.update step of the enricher merge (graph.py line 159): every key
present in the parsed object overwrites the corresponding founder field, even
when its value is null; absent keys leave the field alone.  The two
ensure-keys lines (161-162) are identities in this typed model. -/
def applyUpdate (f : FounderInfo) (u : FounderUpdate) : FounderInfo :=
  { f with
      twitter_url := u.twitter_url.getD f.twitter_url
      email := u.email.getD f.email
      phone := u.phone.getD f.phone
      linkedin_url := u.linkedin_url.getD f.linkedin_url }

/-- The enriched_founders accumulation loop of graph.py lines 130-166: founder
number i keeps its record when its extraction fails, else receives the merge. -/
def enrichFounders (os : Nat → EnrichOutcome) : Nat → List FounderInfo → List FounderInfo
  | _, [] => []
  | i, f :: fs =>
      (match os i with
       | EnrichOutcome.fail => f
       | EnrichOutcome.ok u => applyUpdate f u) :: enrichFounders os (i + 1) fs

/-- enricher_node (graph.py lines 118-169).  The bare state["company_info"]
subscript raises KeyError when the entry is absent, modelled as error.  With
no founders the node only logs; otherwise it rebuilds the founder list. -/
def enricher_node (st : AgentState) (os : Nat → EnrichOutcome) : Except String AgentState :=
  match st.company_info with
  | none => Except.error "KeyError: company_info"
  | some info =>
      if info.founders.isEmpty then
        Except.ok { st with logs := st.logs ++ ["No founders to enrich."] }
      else
        Except.ok
          { st with
              company_info :=
                some { info with founders := enrichFounders os 0 info.founders } }

/-- validator_node (graph.py lines 171-211): recomputes the defect list from
the profile alone, overwrites errors wholesale, sets is_valid to emptiness of
the defects, and increments retry_count by one. -/
def validator_node (st : AgentState) : Except String AgentState :=
  match st.company_info with
  | none => Except.error "KeyError: company_info"
  | some info =>
      let errs := validatorDefects info
      Except.ok
        { st with
            is_valid := errs.isEmpty
            errors := errs
            retry_count := st.retry_count + 1 }

/-- router (graph.py lines 213-223), as the decision to stop: END when
is_valid holds or the retry budget is exhausted, otherwise loop back. -/
def router (st : AgentState) : Bool :=
  st.is_valid || decide (st.retry_count > 1)

/-- One full researcher -> enricher -> validator pass of the compiled graph
(edges at graph.py lines 232-239). -/
def runPass (st : AgentState) (po : PassOutcome) : Except String AgentState :=
  match enricher_node (researcher_node st po.research) po.enrich with
  | Except.error e => Except.error e
  | Except.ok st2 => validator_node st2

/-- The conditional-edge loop of the compiled graph: run passes, consulting
router after each validator, until END.  fuel bounds the number of passes we
unfold; ok none means the fuel ran out while the router still said retry. -/
def loop : Nat → Nat → AgentState → (Nat → PassOutcome) → Except String (Option AgentState)
  | 0, _, _, _ => Except.ok none
  | fuel + 1, i, st, outs =>
      match runPass st (outs i) with
      | Except.error e => Except.error e
      | Except.ok st2 =>
          if router st2 then Except.ok (some st2) else loop fuel (i + 1) st2 outs

/-- execution_graph.invoke on a state, consuming pass outcomes in order. -/
def runGraph (st : AgentState) (outs : Nat → PassOutcome) (fuel : Nat) :
    Except String (Option AgentState) :=
  loop fuel 0 st outs

/-! Output flattening from main.py lines 59-80. -/

/-- The list comprehension feeding Founder Names (main.py line 60): every
founder contributes its name. -/
def founderNamesEntries (fs : List FounderInfo) : List String :=
  fs.map fun f => f.name

/-- The list comprehension feeding Founder Emails (main.py line 61): only
founders with a truthy email contribute. -/
def founderEmailsEntries (fs : List FounderInfo) : List String :=
  (fs.filter fun f => truthy f.email).map fun f => f.email.getD ""

/-- The list comprehension feeding Founder Phones (main.py line 62). -/
def founderPhonesEntries (fs : List FounderInfo) : List String :=
  (fs.filter fun f => truthy f.phone).map fun f => f.phone.getD ""

/-- The list comprehension feeding Founder LinkedIns (main.py line 63). -/
def founderLinkedinsEntries (fs : List FounderInfo) : List String :=
  (fs.filter fun f => truthy f.linkedin_url).map fun f => f.linkedin_url.getD ""

/-- The list comprehension feeding Founder Twitters (main.py line 64). -/
def founderTwittersEntries (fs : List FounderInfo) : List String :=
  (fs.filter fun f => truthy f.twitter_url).map fun f => f.twitter_url.getD ""

/-- Joined Founder Names field. -/
def founderNamesField (fs : List FounderInfo) : String :=
  String.intercalate "; " (founderNamesEntries fs)

/-- Joined Founder Emails field. -/
def founderEmailsField (fs : List FounderInfo) : String :=
  String.intercalate "; " (founderEmailsEntries fs)

/-- Joined Founder Phones field. -/
def founderPhonesField (fs : List FounderInfo) : String :=
  String.intercalate "; " (founderPhonesEntries fs)

/-- Joined Founder LinkedIns field. -/
def founderLinkedinsField (fs : List FounderInfo) : String :=
  String.intercalate "; " (founderLinkedinsEntries fs)

/-- Joined Founder Twitters field. -/
def founderTwittersField (fs : List FounderInfo) : String :=
  String.intercalate "; " (founderTwittersEntries fs)

/-- The flattened CSV row built at main.py lines 66-80. -/
structure OutputRow where
  inputCompany : String
  domain : String
  description : String
  staffStrength : String
  companyLinkedin : String
  companyTwitter : String
  companyPhone : String
  founderNames : String
  founderEmails : String
  founderPhones : String
  founderLinkedins : String
  founderTwitters : String
  errorsField : String
deriving DecidableEq, Repr

/-- The stand-in for final_state.get("company_info", {}) when the key is
absent: every dict.get on it yields the default. -/
def emptyInfo : CompanyInfo :=
  { name := "", linkedin_url := "", founders := [] }

/-- Row construction from main.py lines 52-80. -/
def flattenRow (company_name : String) (final : AgentState) : OutputRow :=
  let info := final.company_info.getD emptyInfo
  { inputCompany := company_name
    domain := info.domain.getD ""
    description := info.description.getD ""
    staffStrength := info.staff_strength.getD ""
    companyLinkedin := info.linkedin_url
    companyTwitter := info.twitter_url.getD ""
    companyPhone := info.phone.getD ""
    founderNames := founderNamesField info.founders
    founderEmails := founderEmailsField info.founders
    founderPhones := founderPhonesField info.founders
    founderLinkedins := founderLinkedinsField info.founders
    founderTwitters := founderTwittersField info.founders
    errorsField := String.intercalate "; " final.errors }

/-- The per-company body of the main loop (main.py lines 42-84): invoke the
graph and flatten; the surrounding try/except turns any exception from invoke
into a skipped row, i.e. no output row for that company. -/
def processCompany (company_name company_linkedin : String)
    (outs : Nat → PassOutcome) (fuel : Nat) : Option OutputRow :=
  match runGraph (initialState company_name company_linkedin) outs fuel with
  | Except.ok (some fin) => some (flattenRow company_name fin)
  | _ => none

/-! Helper lemmas about the individual nodes. -/

/-- The researcher node never changes retry_count. -/
theorem researcher_retry (st : AgentState) (o : ResearchOutcome) :
    (researcher_node st o).retry_count = st.retry_count := by
  cases o <;> rfl

/-- A failed researcher pass does not touch company_info. -/
theorem researcher_fail_info (st : AgentState) (msg : String) :
    (researcher_node st (ResearchOutcome.fail msg)).company_info = st.company_info := rfl

/-- A successful researcher pass always leaves company_info populated. -/
theorem researcher_ok_isSome (st : AgentState) (d : ResearchData) :
    ((researcher_node st (ResearchOutcome.ok d)).company_info).isSome := by
  simp [researcher_node]

/-- The researcher node never erases an already-populated company_info. -/
theorem researcher_isSome_of_isSome (st : AgentState) (o : ResearchOutcome)
    (h : st.company_info.isSome) : (researcher_node st o).company_info.isSome := by
  cases o with
  | fail msg => rw [researcher_fail_info]; exact h
  | ok d => exact researcher_ok_isSome st d

/-- With a populated company_info the enricher node succeeds and keeps
company_info populated. -/
theorem enricher_ok_of_some (st : AgentState) (os : Nat → EnrichOutcome)
    (info : CompanyInfo) (h : st.company_info = some info) :
    ∃ st' info', enricher_node st os = Except.ok st' ∧ st'.company_info = some info' := by
  by_cases hf : info.founders.isEmpty
  · refine ⟨{ st with logs := st.logs ++ ["No founders to enrich."] }, info, ?_, h⟩
    simp [enricher_node, h, hf]
  · refine
      ⟨{ st with
          company_info := some { info with founders := enrichFounders os 0 info.founders } },
        { info with founders := enrichFounders os 0 info.founders }, ?_, rfl⟩
    simp [enricher_node, h, hf]

/-- A successful enricher run preserves retry_count, is_valid, errors and
keeps company_info populated. -/
theorem enricher_ok_shape (st : AgentState) (os : Nat → EnrichOutcome)
    (st' : AgentState) (h : enricher_node st os = Except.ok st') :
    st'.retry_count = st.retry_count ∧ st'.is_valid = st.is_valid ∧
      st'.errors = st.errors ∧ st'.company_info.isSome := by
  cases hci : st.company_info with
  | none => simp [enricher_node, hci] at h
  | some info =>
      by_cases hf : info.founders.isEmpty <;>
        simp [enricher_node, hci, hf] at h <;> subst h <;> simp [hci]

/-- With a populated company_info the validator node succeeds and its output
is fully determined by the profile. -/
theorem validator_ok_of_some (st : AgentState) (info : CompanyInfo)
    (h : st.company_info = some info) :
    validator_node st =
      Except.ok
        { st with
            is_valid := (validatorDefects info).isEmpty
            errors := validatorDefects info
            retry_count := st.retry_count + 1 } := by
  simp [validator_node, h]

/-- Any successful validator run arose from a populated company_info and has
the determined shape. -/
theorem validator_shape (st fin : AgentState) (h : validator_node st = Except.ok fin) :
    ∃ info, st.company_info = some info ∧
      fin =
        { st with
            is_valid := (validatorDefects info).isEmpty
            errors := validatorDefects info
            retry_count := st.retry_count + 1 } := by
  cases hci : st.company_info with
  | none => simp [validator_node, hci] at h
  | some info =>
      refine ⟨info, rfl, ?_⟩
      simp [validator_node, hci] at h
      exact h.symm

/-- Shape of a whole successful pass: retry_count goes up by exactly one and
the final errors and verdict are those recomputed by the validator from the
final profile. -/
theorem runPass_shape (st : AgentState) (po : PassOutcome) (fin : AgentState)
    (h : runPass st po = Except.ok fin) :
    fin.retry_count = st.retry_count + 1 ∧
      ∃ info, fin.company_info = some info ∧ fin.errors = validatorDefects info ∧
        fin.is_valid = (validatorDefects info).isEmpty := by
  rw [runPass] at h
  cases henr : enricher_node (researcher_node st po.research) po.enrich with
  | error e => rw [henr] at h; cases h
  | ok st2 =>
      rw [henr] at h
      obtain ⟨info, hci, hfin⟩ := validator_shape st2 fin h
      obtain ⟨hretry, _, _, _⟩ := enricher_ok_shape _ po.enrich st2 henr
      subst hfin
      refine ⟨?_, info, by simp [hci], by simp, by simp⟩
      simp [hretry, researcher_retry]

/-- A pass whose researcher phase leaves company_info populated succeeds. -/
theorem runPass_ok (st : AgentState) (po : PassOutcome)
    (h : ((researcher_node st po.research).company_info).isSome) :
    ∃ fin, runPass st po = Except.ok fin := by
  obtain ⟨info, hinfo⟩ := Option.isSome_iff_exists.mp h
  obtain ⟨st', info', henr, hci⟩ := enricher_ok_of_some _ po.enrich info hinfo
  refine
    ⟨{ st' with
        is_valid := (validatorDefects info').isEmpty
        errors := validatorDefects info'
        retry_count := st'.retry_count + 1 }, ?_⟩
  unfold runPass
  rw [henr]
  exact validator_ok_of_some st' info' hci

/-- Unfolding equation for one iteration of the controller loop. -/
theorem loop_succ (fuel i : Nat) (st : AgentState) (outs : Nat → PassOutcome) :
    loop (fuel + 1) i st outs =
      match runPass st (outs i) with
      | Except.error e => Except.error e
      | Except.ok st2 =>
          if router st2 then Except.ok (some st2) else loop fuel (i + 1) st2 outs := rfl

/-- Every state the controller hands to END was just produced by the
validator (so its errors are the defects of its final profile), satisfies the
router condition, and its retry_count grew by at least one pass but stopped
at the first pass or by the bound two. -/
theorem loop_done_shape :
    ∀ (fuel i : Nat) (st : AgentState) (outs : Nat → PassOutcome) (fin : AgentState),
      loop fuel i st outs = Except.ok (some fin) →
      (∃ info, fin.company_info = some info ∧ fin.errors = validatorDefects info ∧
        fin.is_valid = (validatorDefects info).isEmpty) ∧
      router fin = true ∧
      st.retry_count + 1 ≤ fin.retry_count ∧
      (fin.retry_count = st.retry_count + 1 ∨ fin.retry_count ≤ 2) := by
  intro fuel
  induction fuel with
  | zero => intro i st outs fin h; simp [loop] at h
  | succ fuel ih =>
      intro i st outs fin h
      rw [loop_succ] at h
      cases hrp : runPass st (outs i) with
      | error e => rw [hrp] at h; cases h
      | ok st2 =>
          rw [hrp] at h
          have h2 :
              (if router st2 then Except.ok (some st2) else loop fuel (i + 1) st2 outs) =
                Except.ok (some fin) := h
          obtain ⟨hretry, hshape⟩ := runPass_shape st (outs i) st2 hrp
          by_cases hr : router st2
          · rw [if_pos hr] at h2
            cases h2
            exact ⟨hshape, hr, by omega, Or.inl hretry⟩
          · rw [if_neg hr] at h2
            obtain ⟨hshape2, hrouter2, hlow, hbound⟩ := ih (i + 1) st2 outs fin h2
            have hle : st2.retry_count ≤ 1 := by
              by_contra hgt
              exact hr (by simp [router]; omega)
            exact ⟨hshape2, hrouter2, by omega, by omega⟩

/-- The enrich loop keeps the founder list length. -/
theorem enrichFounders_length (os : Nat → EnrichOutcome) :
    ∀ (fs : List FounderInfo) (i : Nat), (enrichFounders os i fs).length = fs.length := by
  intro fs
  induction fs with
  | nil => intro i; rfl
  | cons f fs ih => intro i; simp [enrichFounders, ih (i + 1)]

/-- Pointwise description of the enrich loop: founder number k of the result
is founder number k of the input, transformed by its own outcome only. -/
theorem enrichFounders_getElem (os : Nat → EnrichOutcome) :
    ∀ (fs : List FounderInfo) (i k : Nat),
      (enrichFounders os i fs)[k]? =
        (fs[k]?).map fun f =>
          match os (i + k) with
          | EnrichOutcome.fail => f
          | EnrichOutcome.ok u => applyUpdate f u := by
  intro fs
  induction fs with
  | nil => intro i k; simp [enrichFounders]
  | cons f fs ih =>
      intro i k
      cases k with
      | zero => simp [enrichFounders]
      | succ k =>
          have harith : i + (k + 1) = (i + 1) + k := by omega
          simp [enrichFounders, ih (i + 1) k, harith]

/-- Filtering with a predicate that rejects some member strictly shortens the
list. -/
theorem length_filter_lt_of_mem {α : Type} (p : α → Bool) (l : List α) (a : α)
    (ha : a ∈ l) (hpa : p a = false) : (l.filter p).length < l.length := by
  induction l with
  | nil => cases ha
  | cons b l ih =>
      have hle := List.length_filter_le p l
      rcases List.mem_cons.mp ha with hba | hmem
      · subst hba
        rw [List.filter_cons, if_neg (by simp [hpa]), List.length_cons]
        omega
      · have hlt := ih hmem
        rw [List.filter_cons, List.length_cons]
        cases hpb : p b with
        | true => rw [if_pos (by simp [hpb]), List.length_cons]; omega
        | false => rw [if_neg (by simp [hpb])]; omega

/-- First character of every defect string the validator can emit: M, N, I
or S, never R. -/
theorem head_of_mem_validatorDefects (info : CompanyInfo) (e : String)
    (h : e ∈ validatorDefects info) :
    e.data.head? = some 'M' ∨ e.data.head? = some 'N' ∨
      e.data.head? = some 'I' ∨ e.data.head? = some 'S' := by
  unfold validatorDefects at h
  simp only [List.mem_append] at h
  rcases h with ((((h | h) | h) | h) | h)
  · split at h
    · cases h
    · rw [List.mem_singleton] at h; subst h; exact Or.inl rfl
  · split at h
    · rw [List.mem_singleton] at h; subst h; exact Or.inr (Or.inl rfl)
    · cases h
  · unfold companyTwitterDefects at h
    split at h
    · cases h
    · split at h
      · rw [List.mem_singleton] at h; subst h
        refine Or.inr (Or.inr (Or.inl ?_))
        rw [String.data_append]; rfl
      · cases h
  · unfold staffDefects at h
    split at h
    · cases h
    · split at h
      · rw [List.mem_singleton] at h; subst h
        refine Or.inr (Or.inr (Or.inr ?_))
        rw [String.data_append]; rfl
      · cases h
  · rw [List.mem_flatten] at h
    obtain ⟨l, hl, hel⟩ := h
    rw [List.mem_map] at hl
    obtain ⟨f, _, hfl⟩ := hl
    subst hfl
    unfold founderTwitterDefects at hel
    split at hel
    · cases hel
    · split at hel
      · rw [List.mem_singleton] at hel; subst hel
        refine Or.inr (Or.inr (Or.inl ?_))
        rw [String.data_append, String.data_append]; rfl
      · cases hel

/-- The researcher diagnostic always begins with the letter R. -/
theorem head_of_researcher_diagnostic (msg : String) :
    ("Researcher Error: " ++ msg).data.head? = some 'R' := by
  rw [String.data_append]; rfl

/-- The researcher diagnostic can never be one of the validator defects. -/
theorem researcher_diagnostic_not_defect (info : CompanyInfo) (msg : String) :
    ("Researcher Error: " ++ msg) ∉ validatorDefects info := by
  intro hmem
  have hhead := head_of_mem_validatorDefects info _ hmem
  rw [head_of_researcher_diagnostic] at hhead
  rcases hhead with h | h | h | h <;> simp at h

/-! Claim theorems. -/

/-- C3: for every profile state and every successfully parsed researcher
extraction result, the five company scalar fields after the pass equal
exactly the extracted values, null values included (a prior non-null value is
erased), and founders equals the extracted list when that list is non-empty,
else the prior founder list (preservation on empty). -/
theorem researcher_merge_law (st : AgentState) (p : CompanyInfo) (d : ResearchData)
    (h : st.company_info = some p) :
    ∃ pNew, (researcher_node st (ResearchOutcome.ok d)).company_info = some pNew ∧
      pNew.domain = d.domain ∧ pNew.description = d.description ∧
      pNew.twitter_url = d.twitter_url ∧ pNew.phone = d.phone ∧
      pNew.staff_strength = d.staff_strength ∧
      pNew.founders = (if d.founders.isEmpty then p.founders else d.founders) := by
  by_cases hf : d.founders.isEmpty
  · refine
      ⟨{ p with
          domain := d.domain
          description := d.description
          twitter_url := d.twitter_url
          phone := d.phone
          staff_strength := d.staff_strength }, ?_, rfl, rfl, rfl, rfl, rfl, ?_⟩
    · simp [researcher_node, h, hf]
    · simp [hf]
  · refine
      ⟨{ p with
          domain := d.domain
          description := d.description
          twitter_url := d.twitter_url
          phone := d.phone
          staff_strength := d.staff_strength
          founders := d.founders }, ?_, rfl, rfl, rfl, rfl, rfl, ?_⟩
    · simp [researcher_node, h, hf]
    · simp [hf]

/-- C4: for every founder list and per-founder extraction outcomes, the
enricher stage succeeds, a founder whose extraction failed keeps exactly its
prior record, every other founder receives exactly its own merge, and the run
continues to the validator without aborting. -/
theorem enricher_isolation (st : AgentState) (info : CompanyInfo)
    (os : Nat → EnrichOutcome) (h : st.company_info = some info) :
    ∃ st', enricher_node st os = Except.ok st' ∧
      (∃ info', st'.company_info = some info' ∧
        info'.founders.length = info.founders.length ∧
        (∀ k, os k = EnrichOutcome.fail → info'.founders[k]? = info.founders[k]?) ∧
        (∀ k u, os k = EnrichOutcome.ok u →
          info'.founders[k]? = (info.founders[k]?).map fun f => applyUpdate f u)) ∧
      ∃ st'', validator_node st' = Except.ok st'' := by
  by_cases hf : info.founders.isEmpty
  · have hnil : info.founders = [] := List.isEmpty_iff.mp hf
    refine
      ⟨{ st with logs := st.logs ++ ["No founders to enrich."] }, ?_,
        ⟨info, h, rfl, fun k _ => rfl, ?_⟩, ⟨_, validator_ok_of_some _ info h⟩⟩
    · simp [enricher_node, h, hf]
    · intro k u _
      rw [hnil]
      simp
  · refine
      ⟨{ st with
          company_info := some { info with founders := enrichFounders os 0 info.founders } },
        ?_,
        ⟨{ info with founders := enrichFounders os 0 info.founders }, rfl, ?_, ?_, ?_⟩,
        ⟨_, validator_ok_of_some _ _ rfl⟩⟩
    · simp [enricher_node, h, hf]
    · exact enrichFounders_length os info.founders 0
    · intro k hk
      have hget := enrichFounders_getElem os info.founders 0 k
      show (enrichFounders os 0 info.founders)[k]? = info.founders[k]?
      rw [hget]
      simp [hk]
    · intro k u hk
      have hget := enrichFounders_getElem os info.founders 0 k
      show (enrichFounders os 0 info.founders)[k]? = _
      rw [hget]
      simp [hk]

/-- C5: a failed researcher extraction leaves every profile field unchanged,
appends exactly one diagnostic to the error log, and the node itself never
raises; the rest of the pass also proceeds whenever company_info is already
populated.  (On a first-pass failure company_info is still absent and the
next stage raises; see the counterexample.) -/
theorem researcher_failure_noop (st : AgentState) (msg : String) :
    researcher_node st (ResearchOutcome.fail msg) =
      { st with errors := st.errors ++ ["Researcher Error: " ++ msg] } ∧
    (researcher_node st (ResearchOutcome.fail msg)).company_info = st.company_info ∧
    (researcher_node st (ResearchOutcome.fail msg)).errors.length = st.errors.length + 1 ∧
    (∀ info os, st.company_info = some info →
      ∃ st', enricher_node (researcher_node st (ResearchOutcome.fail msg)) os = Except.ok st') := by
  refine ⟨rfl, rfl, by simp [researcher_node], ?_⟩
  intro info os h
  obtain ⟨st', info', henr, _⟩ :=
    enricher_ok_of_some (researcher_node st (ResearchOutcome.fail msg)) os info
      (by rw [researcher_fail_info]; exact h)
  exact ⟨st', henr⟩

/-- C7: the validator defects are a pure function of the profile, each run
fully replaces the prior errors, is_valid holds exactly when the defects are
empty, and an immediate second run reproduces the same defects and verdict. -/
theorem validator_pure_idempotent (st : AgentState) (info : CompanyInfo)
    (h : st.company_info = some info) :
    ∃ st', validator_node st = Except.ok st' ∧
      st'.errors = validatorDefects info ∧
      (st'.is_valid = true ↔ st'.errors = []) ∧
      st'.company_info = some info ∧
      st'.retry_count = st.retry_count + 1 ∧
      ∃ st'', validator_node st' = Except.ok st'' ∧
        st''.errors = st'.errors ∧ st''.is_valid = st'.is_valid := by
  refine ⟨_, validator_ok_of_some st info h, rfl, ?_, h, rfl, ?_⟩
  · simp [List.isEmpty_iff]
  · exact ⟨_, validator_ok_of_some _ info h, rfl, rfl⟩

/-- C6: a truthy company twitter URL produces a defect naming the URL exactly
when it fails the pattern; the same per-founder check produces a defect naming
the founder; absent or empty URLs produce no defect; and the two concrete
examples behave as stated. -/
theorem twitter_url_rule (info : CompanyInfo) :
    matchesTwitter "https://x.com/acme" = true ∧
    matchesTwitter "https://facebook.com/acme" = false ∧
    companyTwitterDefects none = [] ∧
    companyTwitterDefects (some "") = [] ∧
    (∀ u, u ≠ "" → matchesTwitter u = false →
      companyTwitterDefects (some u) = ["Invalid Company Twitter URL: " ++ u]) ∧
    (∀ u, matchesTwitter u = true → companyTwitterDefects (some u) = []) ∧
    (∀ f u, f.twitter_url = some u → u ≠ "" → matchesTwitter u = false →
      founderTwitterDefects f = ["Invalid Founder Twitter URL (" ++ f.name ++ "): " ++ u]) ∧
    (∀ f u, f.twitter_url = some u → matchesTwitter u = true →
      founderTwitterDefects f = []) ∧
    (∀ f, f.twitter_url = none → founderTwitterDefects f = []) ∧
    (∀ f, f.twitter_url = some "" → founderTwitterDefects f = []) ∧
    (info.twitter_url = some "https://facebook.com/acme" →
      ("Invalid Company Twitter URL: " ++ "https://facebook.com/acme")
        ∈ validatorDefects info) := by
  refine ⟨by decide, by decide, rfl, by decide, ?_, ?_, ?_, ?_, ?_, ?_, ?_⟩
  · intro u hu hm
    simp [companyTwitterDefects, hm, hu]
  · intro u hm
    simp [companyTwitterDefects, hm]
  · intro f u hf hu hm
    simp [founderTwitterDefects, hf, hm, hu]
  · intro f u hf hm
    simp [founderTwitterDefects, hf, hm]
  · intro f hf
    simp [founderTwitterDefects, hf]
  · intro f hf
    simp [founderTwitterDefects, hf]
  · intro h
    unfold validatorDefects
    simp only [List.mem_append]
    refine Or.inl (Or.inl (Or.inr ?_))
    rw [h]
    decide

/-- Exact firing condition of the staff-strength check, in terms of the
character list of the staff string. -/
theorem staffDefects_cond (s : String) :
    staffDefects (some s) ≠ [] ↔
      s.data ≠ [] ∧ hasDigit s = false ∧ s.data.length ≤ 1 := by
  obtain ⟨l⟩ := s
  have hlen : (String.mk l).length = l.length := rfl
  show (if (String.mk l != "" && !(hasDigit ⟨l⟩ || (String.mk l).length > 1)) then
      ["Suspicious Staff Strength: " ++ String.mk l] else []) ≠ [] ↔ _
  by_cases hc : (String.mk l != "" && !(hasDigit ⟨l⟩ || (String.mk l).length > 1)) = true
  · rw [if_pos hc]
    simp only [Bool.and_eq_true, bne_iff_ne, ne_eq, Bool.not_eq_true',
      Bool.or_eq_false_iff, decide_eq_false_iff_not, hlen, not_lt] at hc
    constructor
    · intro _
      refine ⟨?_, hc.2.1, hc.2.2⟩
      intro hl
      apply hc.1
      have hl2 : l = [] := hl
      rw [hl2]
    · intro _
      simp
  · rw [if_neg hc]
    constructor
    · intro habs
      exact absurd rfl habs
    · rintro ⟨h1, h2, h3⟩
      exfalso
      apply hc
      simp only [Bool.and_eq_true, bne_iff_ne, ne_eq, Bool.not_eq_true',
        Bool.or_eq_false_iff, decide_eq_false_iff_not, hlen, not_lt]
      refine ⟨?_, h2, h3⟩
      intro he
      exact h1 (congrArg String.data he)

/-- C8: a present staff strength is flagged as suspicious unless it contains
a digit or is longer than one character; equivalently the defect fires exactly
when the string is a single non-digit character, and it then names the
string; absent or empty staff strength produces no defect. -/
theorem staff_strength_rule (s : String) :
    staffDefects none = [] ∧
    staffDefects (some "") = [] ∧
    (staffDefects (some s) ≠ [] ↔ ∃ c, s.data = [c] ∧ c.isDigit = false) ∧
    (staffDefects (some s) ≠ [] →
      staffDefects (some s) = ["Suspicious Staff Strength: " ++ s]) := by
  refine ⟨rfl, by decide, ?_, ?_⟩
  · rw [staffDefects_cond]
    constructor
    · rintro ⟨h1, h2, h3⟩
      cases hd : s.data with
      | nil => exact absurd hd h1
      | cons c rest =>
          rw [hd] at h3
          simp only [List.length_cons] at h3
          have hrest : rest = [] := List.length_eq_zero.mp (by omega)
          subst hrest
          have h2b : (s.data.any Char.isDigit) = false := h2
          rw [hd] at h2b
          exact ⟨c, rfl, by simpa using h2b⟩
    · rintro ⟨c, hd, hdig⟩
      refine ⟨by rw [hd]; simp, ?_, by rw [hd]; simp⟩
      show (s.data.any Char.isDigit) = false
      rw [hd]
      simpa using hdig
  · intro hne
    show (if (s != "" && !(hasDigit s || s.length > 1)) then
        ["Suspicious Staff Strength: " ++ s] else []) = _
    by_cases hc : (s != "" && !(hasDigit s || s.length > 1)) = true
    · rw [if_pos hc]
    · exfalso
      apply hne
      show (if (s != "" && !(hasDigit s || s.length > 1)) then
          ["Suspicious Staff Strength: " ++ s] else []) = []
      rw [if_neg hc]

/-- C1 (amended): whenever the controller reaches DONE from the initial state,
retry_count is 1 or 2; the validator increments retry_count by exactly one per
run; the router sends VALIDATE to DONE exactly when is_valid holds or
retry_count exceeds one; and provided the FIRST researcher extraction
succeeds, the controller does reach DONE within two full passes.  (Without
that proviso the run can instead crash before DONE; see the counterexample.) -/
theorem controller_retry_bound (name link : String) (outs : Nat → PassOutcome) :
    (∀ fuel fin, runGraph (initialState name link) outs fuel = Except.ok (some fin) →
      fin.retry_count = 1 ∨ fin.retry_count = 2) ∧
    (∀ st info, st.company_info = some info →
      ∃ st', validator_node st = Except.ok st' ∧ st'.retry_count = st.retry_count + 1) ∧
    (∀ st, router st = (st.is_valid || decide (st.retry_count > 1))) ∧
    (∀ d, (outs 0).research = ResearchOutcome.ok d →
      ∃ fin, runGraph (initialState name link) outs 2 = Except.ok (some fin) ∧
        (fin.retry_count = 1 ∨ fin.retry_count = 2)) := by
  refine ⟨?_, ?_, fun st => rfl, ?_⟩
  · intro fuel fin h
    obtain ⟨_, _, hlow, hbound⟩ := loop_done_shape fuel 0 (initialState name link) outs fin h
    have h0 : (initialState name link).retry_count = 0 := rfl
    omega
  · intro st info h
    exact ⟨_, validator_ok_of_some st info h, rfl⟩
  · intro d hd
    have hsome1 : ((researcher_node (initialState name link) ((outs 0).research)).company_info).isSome := by
      rw [hd]
      exact researcher_ok_isSome _ _
    obtain ⟨st1, hst1⟩ := runPass_ok (initialState name link) (outs 0) hsome1
    obtain ⟨hretry1, info1, hci1, _, _⟩ := runPass_shape _ _ _ hst1
    have e1 : runGraph (initialState name link) outs 2 =
        (if router st1 then Except.ok (some st1) else loop 1 1 st1 outs) := by
      rw [runGraph, show (2 : Nat) = 1 + 1 from rfl, loop_succ, hst1]
    by_cases hr1 : router st1
    · refine ⟨st1, ?_, Or.inl ?_⟩
      · rw [e1, if_pos hr1]
      · rw [hretry1]
        rfl
    · have hsome1b : st1.company_info.isSome := by rw [hci1]; rfl
      obtain ⟨st2, hst2⟩ := runPass_ok st1 (outs 1)
        (researcher_isSome_of_isSome st1 (outs 1).research hsome1b)
      obtain ⟨hretry2, _⟩ := runPass_shape _ _ _ hst2
      have hretry2v : st2.retry_count = 2 := by
        rw [hretry2, hretry1]
        rfl
      have hr2 : router st2 = true := by
        simp [router, hretry2v]
      have e2 : loop 1 1 st1 outs = Except.ok (some st2) := by
        rw [show (1 : Nat) = 0 + 1 from rfl, loop_succ, hst2]
        exact if_pos hr2
      exact ⟨st2, by rw [e1, if_neg hr1, e2], Or.inr hretry2v⟩

/-- C9: every state handed to DONE was produced by a validator run that
overwrote the shared errors sequence with the defects of the final profile;
hence no researcher diagnostic survives to DONE and the Errors output column
is exactly the final defect list joined. -/
theorem validator_overwrites_shared_errors (fuel i : Nat) (st : AgentState)
    (outs : Nat → PassOutcome) (fin : AgentState)
    (h : loop fuel i st outs = Except.ok (some fin)) :
    ∃ info, fin.company_info = some info ∧ fin.errors = validatorDefects info ∧
      (∀ msg, ("Researcher Error: " ++ msg) ∉ fin.errors) ∧
      (∀ c, (flattenRow c fin).errorsField =
        String.intercalate "; " (validatorDefects info)) := by
  obtain ⟨⟨info, hci, herr, _⟩, _, _, _⟩ := loop_done_shape fuel i st outs fin h
  refine ⟨info, hci, herr, ?_, ?_⟩
  · intro msg hmem
    rw [herr] at hmem
    exact researcher_diagnostic_not_defect info msg hmem
  · intro c
    show String.intercalate "; " fin.errors = _
    rw [herr]

/-- C2 (code behaviour at the failing input): when the researcher extraction
fails on the very first pass, the enricher raises KeyError on the absent
company_info, graph.invoke propagates it, and main skips the row, so no
output row is produced for that company. -/
theorem first_pass_failure_skips_row :
    processCompany "Globex" "https://linkedin.com/company/globex"
        (fun _ =>
          { research := ResearchOutcome.fail "ValidationException"
            enrich := fun _ => EnrichOutcome.fail }) 2 = none ∧
    runGraph (initialState "Globex" "https://linkedin.com/company/globex")
        (fun _ =>
          { research := ResearchOutcome.fail "ValidationException"
            enrich := fun _ => EnrichOutcome.fail }) 2 =
      Except.error "KeyError: company_info" := ⟨rfl, rfl⟩

/-- C10: the Founder Names column joins every founder name in order, while
the four contact columns join only the founders whose field is truthy, so
whenever some founder lacks one of those fields that column has strictly
fewer entries than the names column. -/
theorem founder_columns_misaligned (fs : List FounderInfo) :
    founderNamesField fs = String.intercalate "; " (founderNamesEntries fs) ∧
    founderEmailsField fs = String.intercalate "; " (founderEmailsEntries fs) ∧
    founderPhonesField fs = String.intercalate "; " (founderPhonesEntries fs) ∧
    founderLinkedinsField fs = String.intercalate "; " (founderLinkedinsEntries fs) ∧
    founderTwittersField fs = String.intercalate "; " (founderTwittersEntries fs) ∧
    (founderNamesEntries fs).length = fs.length ∧
    ((∃ f ∈ fs, truthy f.email = false) →
      (founderEmailsEntries fs).length < (founderNamesEntries fs).length) ∧
    ((∃ f ∈ fs, truthy f.phone = false) →
      (founderPhonesEntries fs).length < (founderNamesEntries fs).length) ∧
    ((∃ f ∈ fs, truthy f.linkedin_url = false) →
      (founderLinkedinsEntries fs).length < (founderNamesEntries fs).length) ∧
    ((∃ f ∈ fs, truthy f.twitter_url = false) →
      (founderTwittersEntries fs).length < (founderNamesEntries fs).length) := by
  refine ⟨rfl, rfl, rfl, rfl, rfl, by simp [founderNamesEntries], ?_, ?_, ?_, ?_⟩
  · rintro ⟨f, hmem, hf⟩
    unfold founderEmailsEntries founderNamesEntries
    rw [List.length_map, List.length_map]
    exact length_filter_lt_of_mem _ fs f hmem hf
  · rintro ⟨f, hmem, hf⟩
    unfold founderPhonesEntries founderNamesEntries
    rw [List.length_map, List.length_map]
    exact length_filter_lt_of_mem _ fs f hmem hf
  · rintro ⟨f, hmem, hf⟩
    unfold founderLinkedinsEntries founderNamesEntries
    rw [List.length_map, List.length_map]
    exact length_filter_lt_of_mem _ fs f hmem hf
  · rintro ⟨f, hmem, hf⟩
    unfold founderTwittersEntries founderNamesEntries
    rw [List.length_map, List.length_map]
    exact length_filter_lt_of_mem _ fs f hmem hf

/-! Concrete sample data for witnesses and counterexamples. -/

/-- Sample founder as the researcher extraction yields one. -/
def jane : FounderInfo := { name := "Jane Doe", title := "CEO" }

/-- Sample populated profile. -/
def acmeInfo : CompanyInfo :=
  { name := "Acme Corp", linkedin_url := "li", domain := some "acme.com", founders := [jane] }

/-- Sample state with a populated profile. -/
def acmeState : AgentState :=
  { company_name := "Acme Corp", company_linkedin := "li", company_info := some acmeInfo }

/-- Outcome stream whose researcher extractions always succeed with a clean
profile and whose enricher extractions always fail. -/
def okOuts : Nat → PassOutcome := fun _ =>
  { research := ResearchOutcome.ok { domain := some "acme.com", founders := [jane] }
    enrich := fun _ => EnrichOutcome.fail }

/-- The state in which the controller reaches DONE on the okOuts stream. -/
def acmeFinal : AgentState :=
  { company_name := "Acme Corp"
    company_linkedin := "li"
    company_info :=
      some { name := "Acme Corp", linkedin_url := "li", domain := some "acme.com",
             founders := [jane] }
    retry_count := 1
    is_valid := true
    errors := []
    logs := ["Researcher found basic info and 1 potential founders."] }

/-! Counterexamples and witnesses. -/

/-- C1 counterexample: when the researcher extraction fails on the very first
pass, the run raises (KeyError in the enricher) instead of reaching DONE, so
the controller does not reach DONE for every sequence of provider outcomes. -/
theorem controller_crash_counterexample :
    runGraph (initialState "Acme Corp" "https://linkedin.com/company/acme")
        (fun _ =>
          { research := ResearchOutcome.fail "Connection error"
            enrich := fun _ => EnrichOutcome.fail }) 2 =
      Except.error "KeyError: company_info" := rfl

/-- C1 witness: a run whose first researcher extraction succeeds reaches DONE
within two passes with retry_count in one or two. -/
theorem controller_retry_bound_witness :
    (okOuts 0).research = ResearchOutcome.ok { domain := some "acme.com", founders := [jane] } ∧
    ∃ fin, runGraph (initialState "Acme Corp" "li") okOuts 2 = Except.ok (some fin) ∧
      (fin.retry_count = 1 ∨ fin.retry_count = 2) :=
  ⟨rfl,
    (controller_retry_bound "Acme Corp" "li" okOuts).2.2.2
      { domain := some "acme.com", founders := [jane] } rfl⟩

/-- C3 witness: a second pass that extracts only a description erases the
previously found domain and preserves the founder list. -/
theorem researcher_merge_law_witness :
    acmeState.company_info = some acmeInfo ∧
    ∃ pNew, (researcher_node acmeState
        (ResearchOutcome.ok { description := some "Industrial anvils" })).company_info =
          some pNew ∧
      pNew.domain = none ∧ pNew.description = some "Industrial anvils" ∧
      pNew.twitter_url = none ∧ pNew.phone = none ∧ pNew.staff_strength = none ∧
      pNew.founders = acmeInfo.founders :=
  ⟨rfl, researcher_merge_law acmeState acmeInfo { description := some "Industrial anvils" } rfl⟩

/-- C4 witness: enrichment over the sample profile with every extraction
failing leaves each founder untouched and still reaches the validator. -/
theorem enricher_isolation_witness :
    acmeState.company_info = some acmeInfo ∧
    ∃ st', enricher_node acmeState (fun _ => EnrichOutcome.fail) = Except.ok st' ∧
      (∃ info', st'.company_info = some info' ∧
        info'.founders.length = acmeInfo.founders.length ∧
        (∀ k : Nat, (fun _ => EnrichOutcome.fail) k = EnrichOutcome.fail →
          info'.founders[k]? = acmeInfo.founders[k]?) ∧
        (∀ (k : Nat) (u : FounderUpdate), (fun _ => EnrichOutcome.fail) k = EnrichOutcome.ok u →
          info'.founders[k]? = (acmeInfo.founders[k]?).map fun f => applyUpdate f u)) ∧
      ∃ st'', validator_node st' = Except.ok st'' :=
  ⟨rfl, enricher_isolation acmeState acmeInfo (fun _ => EnrichOutcome.fail) rfl⟩

/-- C5 counterexample: on a first-pass researcher failure the pipeline does
crash immediately after the researcher stage, in the enricher. -/
theorem researcher_failure_crash_counterexample :
    enricher_node
        (researcher_node (initialState "Initech" "https://linkedin.com/company/initech")
          (ResearchOutcome.fail "boom"))
        (fun _ => EnrichOutcome.fail) =
      Except.error "KeyError: company_info" := rfl

/-- C5 witness: after a researcher failure on a state with a populated
profile, the enricher still succeeds. -/
theorem researcher_failure_noop_witness :
    acmeState.company_info = some acmeInfo ∧
    ∃ st', enricher_node (researcher_node acmeState (ResearchOutcome.fail "boom"))
        (fun _ => EnrichOutcome.fail) = Except.ok st' :=
  ⟨rfl,
    (researcher_failure_noop acmeState "boom").2.2.2 acmeInfo (fun _ => EnrichOutcome.fail) rfl⟩

/-- C6 witness: the facebook URL is truthy, fails the pattern, and yields the
defect naming the URL. -/
theorem twitter_url_rule_witness :
    ("https://facebook.com/acme" : String) ≠ "" ∧
    matchesTwitter "https://facebook.com/acme" = false ∧
    companyTwitterDefects (some "https://facebook.com/acme") =
      ["Invalid Company Twitter URL: " ++ "https://facebook.com/acme"] :=
  ⟨by decide, by decide,
    (twitter_url_rule emptyInfo).2.2.2.2.1 "https://facebook.com/acme" (by decide) (by decide)⟩

/-- C7 witness: the validator on the sample state, run twice. -/
theorem validator_pure_idempotent_witness :
    acmeState.company_info = some acmeInfo ∧
    ∃ st', validator_node acmeState = Except.ok st' ∧
      st'.errors = validatorDefects acmeInfo ∧
      (st'.is_valid = true ↔ st'.errors = []) ∧
      st'.company_info = some acmeInfo ∧
      st'.retry_count = acmeState.retry_count + 1 ∧
      ∃ st'', validator_node st' = Except.ok st'' ∧
        st''.errors = st'.errors ∧ st''.is_valid = st'.is_valid :=
  ⟨rfl, validator_pure_idempotent acmeState acmeInfo rfl⟩

/-- C8 witness: the single non-digit staff strength x fires the defect and
the defect names the string. -/
theorem staff_strength_rule_witness :
    staffDefects (some "x") ≠ [] ∧
    staffDefects (some "x") = ["Suspicious Staff Strength: " ++ "x"] :=
  ⟨by decide, (staff_strength_rule "x").2.2.2 (by decide)⟩

/-- C9 witness: the okOuts run reaches DONE in acmeFinal, whose errors are
exactly the validator defects of the final profile. -/
theorem validator_overwrites_shared_errors_witness :
    loop 2 0 (initialState "Acme Corp" "li") okOuts = Except.ok (some acmeFinal) ∧
    ∃ info, acmeFinal.company_info = some info ∧
      acmeFinal.errors = validatorDefects info ∧
      (∀ msg, ("Researcher Error: " ++ msg) ∉ acmeFinal.errors) ∧
      (∀ c, (flattenRow c acmeFinal).errorsField =
        String.intercalate "; " (validatorDefects info)) :=
  ⟨rfl,
    validator_overwrites_shared_errors 2 0 (initialState "Acme Corp" "li") okOuts acmeFinal rfl⟩

/-- C10 witness: with the sample founder lacking an email, the emails column
has strictly fewer entries than the names column. -/
theorem founder_columns_misaligned_witness :
    (∃ f ∈ [jane], truthy f.email = false) ∧
    (founderEmailsEntries [jane]).length < (founderNamesEntries [jane]).length :=
  ⟨⟨jane, by simp, rfl⟩,
    (founder_columns_misaligned [jane]).2.2.2.2.2.2.1 ⟨jane, by simp, rfl⟩⟩

end ResearchAgent
